import Mathlib

/-!
Shallow embedding of the rust-embedded/gpio-cdev core (src/lib.rs, src/errors.rs,
src/ffi.rs, src/async_tokio.rs) in Lean 4, together with theorems settling the
frozen claims about its specification.

Modelling conventions:
* Machine integers (u32, u8, u64, usize) are modelled as Nat; the code never
  relies on wraparound in the functions embedded here.
* Fixed C arrays ([u32; 64], [u8; 64], [c_char; 32]) are modelled as functions
  Nat -> Nat, meaningful on the index range of the array.  A bounds-checked
  array write is modelled by setArr, which returns none exactly when the Rust
  indexing operation would abort; bounds-checked slice reads are modelled with
  List getElem?.  Operations that can abort on an out-of-range index therefore
  return Option, with none meaning the abort.
* Rust strings passed as &str are modelled as their UTF-8 byte lists
  (List Nat), since the code manipulates them via as_bytes and byte lengths.
* File descriptors are opaque integers; the kernel side of each ioctl or read
  is a parameter ("oracle") of the operation, and every operation that can
  transmit a request record to the kernel also returns the list of records it
  actually transmitted, so that "issues no ioctl" is expressible as an empty
  trace.
* The error type merges the two error representations present in the sources:
  errors.rs defines the typed ErrorKind (event, io, ioctl+kind,
  InvalidRequest(n_lines, n_values), Offset(offset)); lib.rs is written against
  the older error_chain interface and produces message errors (msg), wrapped
  nix errnos (nixErr) and chained messages (chained).
-/

namespace GpioCdev

/-- Relevant subset of nix OS error numbers appearing in the sources.  Any
other errno is carried by otherErr. -/
inductive NixErrno where
  | einval
  | eagain
  | eioE
  | otherErr (n : Nat)
deriving DecidableEq

/-- IoctlKind from lib.rs / errors.rs: which operation an ioctl error came
from. -/
inductive IoctlKind where
  | chipInfo
  | lineInfo
  | lineHandle
  | lineEvent
  | getLine
  | setLine
deriving DecidableEq

/-- Merged error kind: the five constructors of errors.rs ErrorKind plus the
error_chain-style errors actually produced by the lib.rs revision in src/
(msg from bail! with a string, nixErr from bail!/? on a nix::Error, chained
from chain_err wrapping a cause). -/
inductive ErrorKind where
  | event (cause : NixErrno)
  | ioErr (code : Nat)
  | ioctl (kind : IoctlKind) (cause : NixErrno)
  | invalidRequest (nLines : Nat) (nValues : Nat)
  | offset (o : Nat)
  | msg (s : String)
  | nixErr (cause : NixErrno)
  | chained (s : String) (cause : ErrorKind)
deriving DecidableEq

/-- InnerChip from lib.rs: path, open file (kept as its raw descriptor),
name, label and line count read from the chip-info ioctl. -/
structure InnerChip where
  path : String
  fd : Nat
  name : String
  label : String
  lines : Nat
deriving DecidableEq

/-- Line from lib.rs: a shared chip reference plus an offset.  The Arc/Box
sharing wrapper is semantically transparent and is collapsed. -/
structure Line where
  chip : InnerChip
  offset : Nat
deriving DecidableEq

/-- Lines from lib.rs: an ordered collection of Line values. -/
structure Lines where
  lines : List Line
deriving DecidableEq

/-- GPIOHANDLES_MAX from ffi.rs. -/
def GPIOHANDLES_MAX : Nat := 64

/-- Lines::MAX_LINES = ffi::GPIOHANDLES_MAX. -/
def Lines.MAX_LINES : Nat := GPIOHANDLES_MAX

/-- Line::new from lib.rs: fails (bail! with the message shown) when
offset >= chip.lines, otherwise constructs the Line. -/
def lineNew (chip : InnerChip) (offset : Nat) : Except ErrorKind Line :=
  if chip.lines ≤ offset then .error (.msg "Offset out of range")
  else .ok { chip := chip, offset := offset }

/-- Chip::get_line from lib.rs: delegates to Line::new on the shared inner
chip. -/
def getLine (chip : InnerChip) (offset : Nat) : Except ErrorKind Line :=
  lineNew chip offset

/-- The collect step of Lines::new: offsets.iter().map(Line::new).collect()
into Result of Vec, stopping at the first error. -/
def collectLines (chip : InnerChip) : List Nat → Except ErrorKind (List Line)
  | [] => .ok []
  | off :: rest =>
    match lineNew chip off with
    | .error e => .error e
    | .ok l =>
      match collectLines chip rest with
      | .error e => .error e
      | .ok ls => .ok (l :: ls)

/-- Lines::new from lib.rs: bails with nix EINVAL when the offset list is
empty or longer than MAX_LINES, otherwise validates every offset through
Line::new. -/
def linesNew (chip : InnerChip) (offsets : List Nat) : Except ErrorKind Lines :=
  if offsets.length = 0 ∨ offsets.length > Lines.MAX_LINES then
    .error (.nixErr .einval)
  else
    match collectLines chip offsets with
    | .error e => .error e
    | .ok lines => .ok { lines := lines }

/-- Chip::get_lines from lib.rs. -/
def getLines (chip : InnerChip) (offsets : List Nat) : Except ErrorKind Lines :=
  linesNew chip offsets

/-- Chip::get_range_lines from lib.rs: collects the u32 range a..b into a
vector of offsets (elements a, a+1, ..., b-1) and calls get_lines. -/
def getRangeLines (chip : InnerChip) (a b : Nat) : Except ErrorKind Lines :=
  getLines chip (List.range' a (b - a))

/-- Chip::get_all_lines from lib.rs: get_range_lines over 0..num_lines. -/
def getAllLines (chip : InnerChip) : Except ErrorKind Lines :=
  getRangeLines chip 0 chip.lines

/-- Lines::chip from lib.rs: self.lines[0].chip().  The index-0 access is
modelled with getElem?, so the result is none exactly when the Rust indexing
would abort on an empty collection. -/
def linesChip (ls : Lines) : Option InnerChip :=
  (ls.lines[0]?).map Line.chip

/-- Lines::len from lib.rs. -/
def linesLen (ls : Lines) : Nat :=
  ls.lines.length

/-- Bounds-checked write into a fixed array of the given length, modelled as a
function update.  Returns none exactly when the index is out of bounds, which
is where the Rust array indexing would abort. -/
def setArr (len : Nat) (a : Nat → Nat) (i v : Nat) : Option (Nat → Nat) :=
  if i < len then some (fun j => if j = i then v else a j) else none

/-- The array-filling loop of Lines::request and MultiLineHandle::set_values:
for each index i in ixs (the loop runs over 0..n in order), read src[i]
(bounds-checked slice read) and write it into a 64-slot array
(bounds-checked array write). -/
def fillArr (src : List Nat) : List Nat → (Nat → Nat) → Option (Nat → Nat)
  | [], a => some a
  | i :: rest, a =>
    match src[i]? with
    | none => none
    | some v =>
      match setArr 64 a i v with
      | none => none
      | some a2 => fillArr src rest a2

/-- rstr_lcpy from lib.rs: with copylen = min (src.len() + 1) length, copy the
first copylen - 1 bytes of src to dst and store a 0 terminator at index
copylen - 1; bytes of dst at larger indices are left untouched.  src is the
UTF-8 byte list of the Rust &str argument. -/
def rstrLcpy (dst : Nat → Nat) (src : List Nat) (length : Nat) : Nat → Nat :=
  let copylen := min (src.length + 1) length
  fun i =>
    if i < copylen - 1 then src.getD i 0
    else if i = copylen - 1 then 0
    else dst i

/-- struct gpiohandle_request from ffi.rs: lineoffsets[64] (u32),
flags (u32), default_values[64] (u8), consumer_label[32] (c_char),
lines (u32), fd (in-out, c_int). -/
structure GpiohandleRequest where
  lineoffsets : Nat → Nat
  flags : Nat
  defaultValues : Nat → Nat
  consumerLabel : Nat → Nat
  lines : Nat
  fd : Int

/-- struct gpiohandle_data from ffi.rs: values[64] (u8). -/
structure GpiohandleData where
  values : Nat → Nat

/-- struct gpioevent_data from ffi.rs: timestamp (u64), id (u32). -/
structure GpioeventData where
  timestamp : Nat
  id : Nat
deriving DecidableEq

/-- mem::size_of::<ffi::gpioevent_data>(): u64 + u32 padded to 16 bytes under
repr(C). -/
def gpioeventDataSize : Nat := 16

/-- The record construction in Line::request: every field of the request is
zeroed (mem::zeroed) except flags and lines = 1, then lineoffsets[0] and
default_values[0] are written (index 0 of a 64-slot array, trivially in
bounds) and the consumer label is copied with rstr_lcpy into the zeroed
32-byte buffer. -/
def buildLineRequest (line : Line) (flags default : Nat) (consumer : List Nat) :
    GpiohandleRequest :=
  { lineoffsets := fun j => if j = 0 then line.offset else 0
    flags := flags
    defaultValues := fun j => if j = 0 then default else 0
    consumerLabel := rstrLcpy (fun _ => 0) consumer 32
    lines := 1
    fd := 0 }

/-- The record construction in Lines::request, after the default-length guard:
arrays start zeroed (mem::zeroed), the loop for i in 0..n writes
lineoffsets[i] = lines[i].offset() and default_values[i] = default[i]
(bounds-checked on both sides), lines = n, and the consumer label is copied
with rstr_lcpy.  Returns none when a loop access would abort. -/
def buildLinesRequest (ls : Lines) (flags : Nat) (default consumer : List Nat) :
    Option GpiohandleRequest :=
  match fillArr (ls.lines.map Line.offset) (List.range ls.lines.length) (fun _ => 0) with
  | none => none
  | some lo =>
    match fillArr default (List.range ls.lines.length) (fun _ => 0) with
    | none => none
    | some dv =>
      some { lineoffsets := lo
             flags := flags
             defaultValues := dv
             consumerLabel := rstrLcpy (fun _ => 0) consumer 32
             lines := ls.lines.length
             fd := 0 }

/-- LineHandle from lib.rs. -/
structure LineHandle where
  line : Line
  flags : Nat
  fd : Int

/-- MultiLineHandle from lib.rs. -/
structure MultiLineHandle where
  lines : Lines
  flags : Nat
  fd : Int

/-- Line::request from lib.rs.  The kernel side of the linehandle ioctl is the
oracle parameter (chip fd and transmitted record to granted descriptor or
errno, the errno being wrapped by the ffi.rs wrapper as an ioctl error and by
chain_err with the message in the source).  The second component is the list
of request records transmitted to the kernel. -/
def lineRequest (kernel : Nat → GpiohandleRequest → Except NixErrno Int)
    (line : Line) (flags default : Nat) (consumer : List Nat) :
    Except ErrorKind LineHandle × List GpiohandleRequest :=
  let req := buildLineRequest line flags default consumer
  match kernel line.chip.fd req with
  | .error e =>
    (.error (.chained "linehandle request ioctl failed" (.ioctl .lineHandle e)), [req])
  | .ok fd => (.ok { line := line, flags := flags, fd := fd }, [req])

/-- Lines::request from lib.rs: n = self.lines.len(); if default.len() != n
it bails with nix EINVAL before building or transmitting anything; otherwise
it builds the request record, reads self.lines[0] for the chip descriptor and
issues the linehandle ioctl, cloning the line list into the returned handle.
Returns none when an array or slice access inside would abort; the trace
component lists the records transmitted to the kernel. -/
def linesRequest (kernel : Nat → GpiohandleRequest → Except NixErrno Int)
    (ls : Lines) (flags : Nat) (default consumer : List Nat) :
    Option (Except ErrorKind MultiLineHandle × List GpiohandleRequest) :=
  if default.length ≠ ls.lines.length then
    some (.error (.nixErr .einval), [])
  else
    match buildLinesRequest ls flags default consumer with
    | none => none
    | some req =>
      match ls.lines[0]? with
      | none => none
      | some line0 =>
        match kernel line0.chip.fd req with
        | .error e =>
          some (.error (.chained "linehandle request ioctl failed" (.ioctl .lineHandle e)),
                [req])
        | .ok fd =>
          some (.ok { lines := { lines := ls.lines }, flags := flags, fd := fd }, [req])

/-- MultiLineHandle::set_values from lib.rs: n = num_lines(); if
values.len() != n it bails with nix EINVAL before building the data record or
issuing the ioctl; otherwise the zeroed gpiohandle_data is filled for
i in 0..n and the set-values ioctl is issued on the handle descriptor.  The
trace component lists the data records transmitted to the kernel. -/
def setValues (kernel : Int → GpiohandleData → Except NixErrno Unit)
    (h : MultiLineHandle) (values : List Nat) :
    Option (Except ErrorKind Unit × List GpiohandleData) :=
  if values.length ≠ h.lines.lines.length then
    some (.error (.nixErr .einval), [])
  else
    match fillArr values (List.range h.lines.lines.length) (fun _ => 0) with
    | none => none
    | some vs =>
      match kernel h.fd { values := vs } with
      | .error e =>
        some (.error (.chained "setting line value failed" (.ioctl .setLine e)),
              [{ values := vs }])
      | .ok _ => some (.ok (), [{ values := vs }])

/-- EventType from lib.rs. -/
inductive EventType where
  | risingEdge
  | fallingEdge
deriving DecidableEq

/-- LineEvent from lib.rs: a newtype over the kernel gpioevent_data record. -/
structure LineEvent where
  data : GpioeventData
deriving DecidableEq

/-- LineEvent::timestamp from lib.rs: returns the u64 nanosecond timestamp of
the record unchanged. -/
def timestamp (e : LineEvent) : Nat :=
  e.data.timestamp

/-- LineEvent::event_type from lib.rs: RisingEdge when the record id is 0x01,
FallingEdge for every other id. -/
def eventType (e : LineEvent) : EventType :=
  if e.data.id = 1 then .risingEdge else .fallingEdge

/-- LineEventHandle::get_event from lib.rs.  The nix read on the event
descriptor is abstracted as its outcome readRes: either a nix errno
(propagated by the question-mark operator as a wrapped nix error) or the byte
count together with the record bytes that were filled in.  When the byte
count differs from the record size the function returns the nix EIO error;
otherwise it returns the decoded event. -/
def getEvent (readRes : Except NixErrno (Nat × GpioeventData)) :
    Except ErrorKind LineEvent :=
  match readRes with
  | .error e => .error (.nixErr e)
  | .ok (bytesRead, data) =>
    if bytesRead ≠ gpioeventDataSize then .error (.nixErr .eioE)
    else .ok { data := data }

/-- The Iterator::next implementation for LineEventHandle from lib.rs: a read
error yields Some(Err(..)); a successful read of exactly the record size
yields Some(Ok(event)); any other byte count (including a short read) yields
None, ending the iteration. -/
def iterNext (readRes : Except NixErrno (Nat × GpioeventData)) :
    Option (Except ErrorKind LineEvent) :=
  match readRes with
  | .ok (bytesRead, data) =>
    if bytesRead ≠ gpioeventDataSize then none
    else some (.ok { data := data })
  | .error e => some (.error (.nixErr e))

/-- Poll from the futures task model used by async_tokio.rs. -/
inductive Poll (α : Type) where
  | ready (a : α)
  | pending

/-- The poll_next of Stream for AsyncLineEventHandle in async_tokio.rs,
abstracted over the outcomes of its three effectful steps:
readyRes is the outcome of poll_read_ready (pending, or ready with Ok or with
an io error converted into the crate error), readRes is the outcome of
handle.read_event() (Ok(Some(event)) for a full record, Ok(None) for a
mismatched byte count, Err(errno) for a failed read), and clearRes is the
outcome of clear_read_ready.  The Bool component records whether the
readiness flag was cleared. -/
def pollNext (readyRes : Poll (Except ErrorKind Unit))
    (readRes : Except NixErrno (Option LineEvent))
    (clearRes : Except ErrorKind Unit) :
    Poll (Option (Except ErrorKind LineEvent)) × Bool :=
  match readyRes with
  | .pending => (.pending, false)
  | .ready (.error e) => (.ready (some (.error e)), false)
  | .ready (.ok _) =>
    match readRes with
    | .ok (some event) => (.ready (some (.ok event)), false)
    | .ok none => (.ready (some (.error (.event .eioE))), false)
    | .error .eagain =>
      match clearRes with
      | .ok _ => (.pending, true)
      | .error e => (.ready (some (.error e)), false)
    | .error e => (.ready (some (.error (.event e))), false)

/-- Sample chip used by the concrete witnesses and counterexamples below. -/
def sampleChip : InnerChip :=
  { path := "/dev/gpiochip0", fd := 3, name := "gpiochip0", label := "pinctrl", lines := 4 }

/-- Sample chip with 64 lines, for the full-size LineSet witness. -/
def wideChip : InnerChip :=
  { path := "/dev/gpiochip1", fd := 4, name := "gpiochip1", label := "wide", lines := 64 }

/-- Sample single-line LineSet over the sample chip. -/
def oneLineSet : Lines :=
  { lines := [{ chip := sampleChip, offset := 0 }] }

/-- Sample multi-line handle over the single-line set, as Lines::request
would produce it with flags OUTPUT and descriptor 9. -/
def oneLineHandle : MultiLineHandle :=
  { lines := oneLineSet, flags := 2, fd := 9 }

/-- Sample two-line LineSet over the sample chip (offsets 0 and 2). -/
def twoLineSet : Lines :=
  { lines := [{ chip := sampleChip, offset := 0 }, { chip := sampleChip, offset := 2 }] }

/-- The collect step of Lines::new succeeds and keeps the offsets in order
when every offset is below the chip line count. -/
theorem collectLines_ok_of_valid (chip : InnerChip) (offs : List Nat)
    (h : ∀ o ∈ offs, o < chip.lines) :
    collectLines chip offs = .ok (offs.map (fun o => { chip := chip, offset := o })) := by
  induction offs with
  | nil => rfl
  | cons o rest ih =>
    have ho : o < chip.lines := h o (List.mem_cons_self o rest)
    have hrest : ∀ x ∈ rest, x < chip.lines := fun x hx => h x (List.mem_cons_of_mem o hx)
    simp [collectLines, lineNew, Nat.not_le.mpr ho, ih hrest]

/-- Inversion for the collect step of Lines::new: on success the produced
lines are as many as the offsets and each one refers to the chip with an
in-range offset. -/
theorem collectLines_ok_inv (chip : InnerChip) :
    ∀ (offs : List Nat) (ls : List Line), collectLines chip offs = .ok ls →
      ls.length = offs.length ∧ ∀ l ∈ ls, l.chip = chip ∧ l.offset < chip.lines := by
  intro offs
  induction offs with
  | nil =>
    intro ls h
    simp [collectLines] at h
    subst h
    simp
  | cons o rest ih =>
    intro ls h
    rw [collectLines] at h
    cases hl : lineNew chip o with
    | error e => rw [hl] at h; exact absurd h (by simp)
    | ok l =>
      rw [hl] at h
      cases hr : collectLines chip rest with
      | error e => rw [hr] at h; exact absurd h (by simp)
      | ok ls2 =>
        rw [hr] at h
        have hcons : l :: ls2 = ls := by injection h
        obtain ⟨hlen, hmem⟩ := ih ls2 hr
        have hline : l.chip = chip ∧ l.offset < chip.lines := by
          unfold lineNew at hl
          split at hl
          · exact absurd hl (by simp)
          · next hcond =>
            have : ({ chip := chip, offset := o } : Line) = l := by injection hl
            subst this
            exact ⟨rfl, Nat.not_le.mp hcond⟩
        subst hcons
        constructor
        · simp [hlen]
        · intro x hx
          rcases List.mem_cons.mp hx with hx | hx
          · subst hx; exact hline
          · exact hmem x hx

/-- The array-filling loop succeeds whenever every visited index is inside
both the source slice and the 64-slot array. -/
theorem fillArr_isSome (src : List Nat) :
    ∀ (ixs : List Nat) (a : Nat → Nat), (∀ i ∈ ixs, i < src.length ∧ i < 64) →
      (fillArr src ixs a).isSome = true := by
  intro ixs
  induction ixs with
  | nil => intro a _; rfl
  | cons i rest ih =>
    intro a h
    obtain ⟨h1, h2⟩ := h i (List.mem_cons_self i rest)
    simp only [fillArr, List.getElem?_eq_getElem h1, setArr, if_pos h2]
    exact ih _ (fun j hj => h j (List.mem_cons_of_mem i hj))

/-- Indices the filling loop never visits keep the value of the initial
array. -/
theorem fillArr_not_mem (src : List Nat) :
    ∀ (ixs : List Nat) (a a2 : Nat → Nat), fillArr src ixs a = some a2 →
      ∀ j, j ∉ ixs → a2 j = a j := by
  intro ixs
  induction ixs with
  | nil =>
    intro a a2 hfill j _
    simp [fillArr] at hfill
    simp [← hfill]
  | cons i rest ih =>
    intro a a2 hfill j hj
    rw [fillArr] at hfill
    cases hv : src[i]? with
    | none => rw [hv] at hfill; exact absurd hfill (by simp)
    | some v =>
      rw [hv] at hfill
      simp only [setArr] at hfill
      by_cases h64 : i < 64
      · rw [if_pos h64] at hfill
        have hrest : j ∉ rest := fun hm => hj (List.mem_cons_of_mem i hm)
        have hne : j ≠ i := fun he => hj (he ▸ List.mem_cons_self i rest)
        rw [ih _ _ hfill j hrest]
        simp [hne]
      · rw [if_neg h64] at hfill; exact absurd hfill (by simp)

/-- Indices the filling loop does visit end up holding the corresponding
source entry (for a duplicate-free index list, as List.range is). -/
theorem fillArr_mem (src : List Nat) :
    ∀ (ixs : List Nat), ixs.Nodup → ∀ (a a2 : Nat → Nat), fillArr src ixs a = some a2 →
      ∀ i ∈ ixs, src[i]? = some (a2 i) := by
  intro ixs
  induction ixs with
  | nil => intro _ a a2 _ i hi; simp at hi
  | cons i0 rest ih =>
    intro hnd a a2 hfill i hi
    obtain ⟨hni, hndr⟩ := List.nodup_cons.mp hnd
    rw [fillArr] at hfill
    cases hv : src[i0]? with
    | none => rw [hv] at hfill; exact absurd hfill (by simp)
    | some v =>
      rw [hv] at hfill
      simp only [setArr] at hfill
      by_cases h64 : i0 < 64
      · rw [if_pos h64] at hfill
        rcases List.mem_cons.mp hi with hcase | hcase
        · subst hcase
          have huntouched := fillArr_not_mem src rest _ a2 hfill i hni
          rw [hv, huntouched]
          simp
        · exact ih hndr _ _ hfill i hcase
      · rw [if_neg h64] at hfill; exact absurd hfill (by simp)

/-- Every byte of the 32-byte consumer-label buffer at or past the copied
label (index min (len src) 31 onward) is zero after rstr_lcpy over a zeroed
buffer. -/
theorem rstrLcpy_zero_past (s : List Nat) (i : Nat)
    (h1 : min s.length 31 ≤ i) :
    rstrLcpy (fun _ => 0) s 32 i = 0 := by
  have hc : min (s.length + 1) 32 - 1 = min s.length 31 := by omega
  simp only [rstrLcpy]
  rw [if_neg (by omega)]
  split <;> rfl

/-- The batched request record always builds (no aborting access) when the
set has at most 64 lines and the default slice matches its length. -/
theorem buildLinesRequest_isSome (ls : Lines) (flags : Nat) (default consumer : List Nat)
    (hlen : ls.lines.length ≤ 64) (hd : default.length = ls.lines.length) :
    (buildLinesRequest ls flags default consumer).isSome = true := by
  have h1 : (fillArr (ls.lines.map Line.offset)
      (List.range ls.lines.length) (fun _ => 0)).isSome = true := by
    apply fillArr_isSome
    intro i hi
    rw [List.mem_range] at hi
    refine ⟨by simpa using hi, by omega⟩
  obtain ⟨lo, hlo⟩ := Option.isSome_iff_exists.mp h1
  have h2 : (fillArr default (List.range ls.lines.length) (fun _ => 0)).isSome = true := by
    apply fillArr_isSome
    intro i hi
    rw [List.mem_range] at hi
    exact ⟨by omega, by omega⟩
  obtain ⟨dv, hdv⟩ := Option.isSome_iff_exists.mp h2
  rw [buildLinesRequest, hlo, hdv]
  rfl

/-- C2 (corrected): for every chip, Chip::get_line succeeds and returns the
Line with the requested offset when the offset is below the line count, and
fails when the offset is at or above the line count; the failure, however, is
the bail message error produced by lib.rs, which does not carry the offending
offset (the offset_err constructor of errors.rs is never called). -/
theorem c2_get_line_range (chip : InnerChip) (o : Nat) :
    (o < chip.lines → getLine chip o = .ok { chip := chip, offset := o }) ∧
    (chip.lines ≤ o → getLine chip o = .error (.msg "Offset out of range")) := by
  constructor
  · intro h; simp [getLine, lineNew, Nat.not_le.mpr h]
  · intro h; simp [getLine, lineNew, h]

/-- C2 counterexample: at the concrete chip with 4 lines and offset 7,
get_line returns the bail message error, not an Offset error carrying 7 as
the claim states. -/
theorem c2_counterexample :
    getLine sampleChip 7 = .error (.msg "Offset out of range") ∧
    ErrorKind.msg "Offset out of range" ≠ ErrorKind.offset 7 :=
  ⟨rfl, by decide⟩

/-- C2 witness: the amended statement evaluated at the 4-line sample chip. -/
theorem c2_witness :
    getLine sampleChip 2 = .ok { chip := sampleChip, offset := 2 } ∧
    getLine sampleChip 9 = .error (.msg "Offset out of range") :=
  ⟨(c2_get_line_range sampleChip 2).1 (by decide),
   (c2_get_line_range sampleChip 9).2 (by decide)⟩

/-- C4 (confirmed): LineSet construction (get_lines, and get_range_lines and
get_all_lines which delegate to it) fails for an empty offset list and for a
65-entry list, and succeeds for exactly 64 offsets each below the chip line
count; the size check happens in linesNew itself, which takes no kernel
oracle and transmits no request record. -/
theorem c4_lines_size_bounds :
    (∀ (chip : InnerChip) (offsets : List Nat), offsets.length = 0 →
        getLines chip offsets = .error (.nixErr .einval)) ∧
    (∀ (chip : InnerChip) (offsets : List Nat), offsets.length = 65 →
        getLines chip offsets = .error (.nixErr .einval)) ∧
    (∀ (chip : InnerChip) (offsets : List Nat), offsets.length = 64 →
        (∀ o ∈ offsets, o < chip.lines) →
        getLines chip offsets =
          .ok { lines := offsets.map (fun o => { chip := chip, offset := o }) }) ∧
    (∀ (chip : InnerChip) (a b : Nat),
        getRangeLines chip a b = getLines chip (List.range' a (b - a))) ∧
    (∀ chip : InnerChip, getAllLines chip = getRangeLines chip 0 chip.lines) := by
  refine ⟨?_, ?_, ?_, fun _ _ _ => rfl, fun _ => rfl⟩
  · intro chip offsets h
    simp [getLines, linesNew, h]
  · intro chip offsets h
    simp [getLines, linesNew, h, Lines.MAX_LINES, GPIOHANDLES_MAX]
  · intro chip offsets h hvalid
    simp [getLines, linesNew, h, Lines.MAX_LINES, GPIOHANDLES_MAX,
      collectLines_ok_of_valid chip offsets hvalid]

/-- C4 witness: the construction bounds evaluated on the 64-line sample
chip with concrete offset lists of lengths 0, 65 and 64. -/
theorem c4_witness :
    getLines wideChip [] = .error (.nixErr .einval) ∧
    getLines wideChip (List.range 65) = .error (.nixErr .einval) ∧
    getLines wideChip (List.range 64) =
      .ok { lines := (List.range 64).map (fun o => { chip := wideChip, offset := o }) } :=
  ⟨c4_lines_size_bounds.1 wideChip [] rfl,
   c4_lines_size_bounds.2.1 wideChip (List.range 65) (by decide),
   c4_lines_size_bounds.2.2.1 wideChip (List.range 64) (by decide) (by decide)⟩

/-- C7 (confirmed): for every consumer byte string s, rstr_lcpy into the
32-byte label buffer copies exactly min (len s) 31 bytes of s, places the
null terminator at index min (len s) 31, and leaves later bytes of the
destination untouched; longer strings are truncated, never rejected, and the
copy is a total operation that cannot fail. -/
theorem c7_rstr_lcpy_truncation (s : List Nat) (dst : Nat → Nat) :
    (∀ i, i < min s.length 31 → rstrLcpy dst s 32 i = s.getD i 0) ∧
    rstrLcpy dst s 32 (min s.length 31) = 0 ∧
    (∀ i, min s.length 31 < i → rstrLcpy dst s 32 i = dst i) := by
  have hc : min (s.length + 1) 32 - 1 = min s.length 31 := by omega
  refine ⟨?_, ?_, ?_⟩
  · intro i hi
    simp only [rstrLcpy]
    rw [if_pos (by omega)]
  · simp only [rstrLcpy]
    rw [if_neg (by omega), if_pos (by omega)]
  · intro i hi
    simp only [rstrLcpy]
    rw [if_neg (by omega), if_neg (by omega)]

/-- C7 witness: truncation of a 40-byte label evaluated concretely: byte 5 is
copied, the terminator sits at index 31, and byte 33 of the destination is
untouched. -/
theorem c7_witness :
    rstrLcpy (fun _ => 7) (List.replicate 40 65) 32 5 = 65 ∧
    rstrLcpy (fun _ => 7) (List.replicate 40 65) 32 31 = 0 ∧
    rstrLcpy (fun _ => 7) (List.replicate 40 65) 32 33 = 7 :=
  ⟨(c7_rstr_lcpy_truncation (List.replicate 40 65) (fun _ => 7)).1 5 (by decide),
   (c7_rstr_lcpy_truncation (List.replicate 40 65) (fun _ => 7)).2.1,
   (c7_rstr_lcpy_truncation (List.replicate 40 65) (fun _ => 7)).2.2 33 (by decide)⟩

/-- C9 (confirmed): LineEvent::event_type returns RisingEdge exactly when the
record id is 0x01 and FallingEdge for every other id, and LineEvent::timestamp
returns the record u64 nanosecond timestamp unchanged. -/
theorem c9_event_decode (e : LineEvent) :
    (eventType e = .risingEdge ↔ e.data.id = 1) ∧
    (e.data.id ≠ 1 → eventType e = .fallingEdge) ∧
    timestamp e = e.data.timestamp := by
  refine ⟨?_, ?_, rfl⟩
  · unfold eventType
    by_cases h : e.data.id = 1 <;> simp [h]
  · intro h
    simp [eventType, h]

/-- C1 (corrected): Lines::request with a default-values slice whose length
differs from the number of lines always fails before building or transmitting
anything: for every kernel oracle the result is the bail EINVAL error and the
transmitted-record trace is empty, so no ioctl is issued and no handle is
created.  The error, however, is the plain nix EINVAL error, not an
InvalidRequest carrying the two counts: the invalid_err constructor of
errors.rs is never called by lib.rs. -/
theorem c1_lines_request_mismatch
    (kernel : Nat → GpiohandleRequest → Except NixErrno Int)
    (ls : Lines) (flags : Nat) (default consumer : List Nat)
    (h : default.length ≠ ls.lines.length) :
    linesRequest kernel ls flags default consumer =
      some (.error (.nixErr .einval), []) := by
  simp [linesRequest, h]

/-- C1 counterexample: at a concrete one-line set with a two-entry default
slice, the error returned is the nix EINVAL error, which differs from the
InvalidRequest error carrying the counts (1, 2) that the claim states. -/
theorem c1_counterexample :
    linesRequest (fun _ _ => .ok 5) oneLineSet 0 [0, 0] [] =
      some (.error (.nixErr .einval), []) ∧
    ErrorKind.nixErr .einval ≠ ErrorKind.invalidRequest 1 2 :=
  ⟨rfl, by decide⟩

/-- C1 witness: the amended statement evaluated at a concrete mismatched
request (one line, three default values). -/
theorem c1_witness :
    linesRequest (fun _ _ => .ok 5) oneLineSet 0 [1, 1, 1] [] =
      some (.error (.nixErr .einval), []) :=
  c1_lines_request_mismatch (fun _ _ => .ok 5) oneLineSet 0 [1, 1, 1] [] (by decide)

/-- C5 (corrected): MultiLineHandle::set_values with a values slice whose
length differs from the number of lines always fails before building the data
record or issuing the set-values ioctl: for every kernel oracle the result is
the bail EINVAL error with an empty transmitted trace, and the handle (a pure
value here) is untouched.  The error, however, is the plain nix EINVAL error,
not an InvalidRequest: invalid_err is never called by lib.rs. -/
theorem c5_set_values_mismatch
    (kernel : Int → GpiohandleData → Except NixErrno Unit)
    (h : MultiLineHandle) (values : List Nat)
    (hv : values.length ≠ h.lines.lines.length) :
    setValues kernel h values = some (.error (.nixErr .einval), []) := by
  simp [setValues, hv]

/-- C5 counterexample: at a concrete one-line handle with a two-entry values
slice, the error returned is the nix EINVAL error, which differs from the
InvalidRequest error carrying the counts (1, 2) that the claim states. -/
theorem c5_counterexample :
    setValues (fun _ _ => .ok ()) oneLineHandle [0, 1] =
      some (.error (.nixErr .einval), []) ∧
    ErrorKind.nixErr .einval ≠ ErrorKind.invalidRequest 1 2 :=
  ⟨rfl, by decide⟩

/-- C5 witness: the amended statement evaluated at a concrete mismatched
set_values call (one line, three values). -/
theorem c5_witness :
    setValues (fun _ _ => .ok ()) oneLineHandle [1, 0, 1] =
      some (.error (.nixErr .einval), []) :=
  c5_set_values_mismatch (fun _ _ => .ok ()) oneLineHandle [1, 0, 1] (by decide)

/-- C3 (corrected): on a read returning a byte count strictly between 0 and
the 16-byte record size, LineEventHandle::get_event reports exactly one
EIO-classed error (the wrapped nix EIO) and never returns a fabricated
LineEvent; the blocking iterator next, however, treats the same short read as
the end of the iteration and returns None, reporting no error item (it also
never fabricates an event). -/
theorem c3_short_read (n : Nat) (data : GpioeventData)
    (h1 : 0 < n) (h2 : n < gpioeventDataSize) :
    getEvent (.ok (n, data)) = .error (.nixErr .eioE) ∧
    iterNext (.ok (n, data)) = none := by
  have hne : n ≠ gpioeventDataSize := Nat.ne_of_lt h2
  constructor
  · simp [getEvent, hne]
  · simp [iterNext, hne]

/-- C3 counterexample: a 5-byte read makes the blocking iterator next return
None, ending the iteration instead of reporting the single I/O-class decode
failure the claim states. -/
theorem c3_counterexample :
    iterNext (.ok (5, { timestamp := 0, id := 0 })) = none ∧
    (none : Option (Except ErrorKind LineEvent)) ≠ some (.error (.nixErr .eioE)) :=
  ⟨rfl, fun h => Option.noConfusion h⟩

/-- C3 witness: the amended statement evaluated at a concrete 5-byte short
read. -/
theorem c3_witness :
    getEvent (.ok (5, { timestamp := 0, id := 0 })) = .error (.nixErr .eioE) ∧
    iterNext (.ok (5, { timestamp := 0, id := 0 })) = none :=
  c3_short_read 5 { timestamp := 0, id := 0 } (by decide) (by decide)

/-- C8 (confirmed): in poll_next, after a successful readiness notification a
read_event failure with EAGAIN is treated as a spurious wake: the readiness
flag is cleared (given that clear_read_ready succeeds) and the poll returns
Pending, producing no stream item; every other read_event failure produces an
error item on the stream without clearing the readiness flag. -/
theorem c8_poll_next_eagain (clearRes : Except ErrorKind Unit)
    (hclear : clearRes = .ok ()) :
    pollNext (.ready (.ok ())) (.error .eagain) clearRes = (.pending, true) ∧
    (∀ e : NixErrno, e ≠ .eagain →
      pollNext (.ready (.ok ())) (.error e) clearRes =
        (.ready (some (.error (.event e))), false)) := by
  subst hclear
  constructor
  · rfl
  · intro e he
    cases e with
    | einval => rfl
    | eagain => exact absurd rfl he
    | eioE => rfl
    | otherErr n => rfl

/-- C8 witness: the EAGAIN and the EIO read failures evaluated concretely
after a successful readiness notification. -/
theorem c8_witness :
    pollNext (.ready (.ok ())) (.error .eagain) (.ok ()) = (.pending, true) ∧
    pollNext (.ready (.ok ())) (.error .eioE) (.ok ()) =
      (.ready (some (.error (.event .eioE))), false) :=
  ⟨(c8_poll_next_eagain (.ok ()) rfl).1,
   (c8_poll_next_eagain (.ok ()) rfl).2 .eioE (by decide)⟩

/-- C9 witness: decoding evaluated on two concrete event records. -/
theorem c9_witness :
    eventType { data := { timestamp := 123, id := 1 } } = .risingEdge ∧
    eventType { data := { timestamp := 5, id := 2 } } = .fallingEdge ∧
    timestamp { data := { timestamp := 123, id := 1 } } = 123 :=
  ⟨(c9_event_decode { data := { timestamp := 123, id := 1 } }).1.mpr rfl,
   (c9_event_decode { data := { timestamp := 5, id := 2 } }).2.1 (by decide),
   (c9_event_decode { data := { timestamp := 123, id := 1 } }).2.2⟩

/-- C6 (confirmed): the request records transmitted to the kernel have all
reserved and unused fields zero.  For a single-line request the lines field
is 1, the lineoffsets and default_values entries at indices at least 1 are 0,
and every consumer-label byte past the copied label is 0.  For a batched
request over a set of n lines that builds successfully, the lines field is n,
the lineoffsets and default_values entries at indices at least n are 0, and
every consumer-label byte past the copied label is 0.  Moreover the records
Line::request and Lines::request actually transmit are exactly these built
records. -/
theorem c6_request_zeroing :
    (∀ (line : Line) (flags default : Nat) (consumer : List Nat),
      (buildLineRequest line flags default consumer).lines = 1 ∧
      (∀ i, 1 ≤ i → (buildLineRequest line flags default consumer).lineoffsets i = 0) ∧
      (∀ i, 1 ≤ i → (buildLineRequest line flags default consumer).defaultValues i = 0) ∧
      (∀ i, min consumer.length 31 ≤ i →
        (buildLineRequest line flags default consumer).consumerLabel i = 0)) ∧
    (∀ (ls : Lines) (flags : Nat) (default consumer : List Nat) (req : GpiohandleRequest),
      buildLinesRequest ls flags default consumer = some req →
      req.lines = ls.lines.length ∧
      (∀ i, ls.lines.length ≤ i → req.lineoffsets i = 0) ∧
      (∀ i, ls.lines.length ≤ i → req.defaultValues i = 0) ∧
      (∀ i, min consumer.length 31 ≤ i → req.consumerLabel i = 0)) ∧
    (∀ (kernel : Nat → GpiohandleRequest → Except NixErrno Int)
        (line : Line) (flags default : Nat) (consumer : List Nat),
      (lineRequest kernel line flags default consumer).2 =
        [buildLineRequest line flags default consumer]) ∧
    (∀ (kernel : Nat → GpiohandleRequest → Except NixErrno Int)
        (ls : Lines) (flags : Nat) (default consumer : List Nat) res tr,
      linesRequest kernel ls flags default consumer = some (res, tr) →
      ∀ req ∈ tr, buildLinesRequest ls flags default consumer = some req) := by
  refine ⟨?_, ?_, ?_, ?_⟩
  · intro line flags default consumer
    refine ⟨rfl, ?_, ?_, ?_⟩
    · intro i hi
      show (if i = 0 then line.offset else 0) = 0
      rw [if_neg (by omega)]
    · intro i hi
      show (if i = 0 then default else 0) = 0
      rw [if_neg (by omega)]
    · intro i hi
      exact rstrLcpy_zero_past consumer i hi
  · intro ls flags default consumer req hreq
    rw [buildLinesRequest] at hreq
    split at hreq
    · exact absurd hreq (by simp)
    · next lo hlo =>
      split at hreq
      · exact absurd hreq (by simp)
      · next dv hdv =>
        injection hreq with hr
        subst hr
        refine ⟨rfl, ?_, ?_, ?_⟩
        · intro i hi
          have hnm : i ∉ List.range ls.lines.length := by
            rw [List.mem_range]; omega
          exact fillArr_not_mem _ _ _ _ hlo i hnm
        · intro i hi
          have hnm : i ∉ List.range ls.lines.length := by
            rw [List.mem_range]; omega
          exact fillArr_not_mem _ _ _ _ hdv i hnm
        · intro i hi
          exact rstrLcpy_zero_past consumer i hi
  · intro kernel line flags default consumer
    simp only [lineRequest]
    cases kernel line.chip.fd (buildLineRequest line flags default consumer) <;> rfl
  · intro kernel ls flags default consumer res tr hres req hmem
    rw [linesRequest] at hres
    split at hres
    · injection hres with hpair
      injection hpair with h1 h2
      subst h2
      exact absurd hmem (List.not_mem_nil req)
    · split at hres
      · exact absurd hres (by simp)
      · next req0 hb =>
        split at hres
        · exact absurd hres (by simp)
        · next line0 hg =>
          split at hres
          · next e hk =>
            injection hres with hpair
            injection hpair with h1 h2
            subst h2
            rcases List.mem_singleton.mp hmem with rfl
            exact hb
          · next fd hk =>
            injection hres with hpair
            injection hpair with h1 h2
            subst h2
            rcases List.mem_singleton.mp hmem with rfl
            exact hb

/-- C6 witness: zeroing evaluated on a concrete single-line request (offset
2, two-byte consumer label) and a concrete two-line batched request. -/
theorem c6_witness :
    (buildLineRequest { chip := sampleChip, offset := 2 } 1 1 [97, 98]).lines = 1 ∧
    (buildLineRequest { chip := sampleChip, offset := 2 } 1 1 [97, 98]).lineoffsets 7 = 0 ∧
    (buildLineRequest { chip := sampleChip, offset := 2 } 1 1 [97, 98]).consumerLabel 2 = 0 ∧
    (buildLinesRequest twoLineSet 1 [1, 0] []).map GpiohandleRequest.lines = some 2 ∧
    (buildLinesRequest twoLineSet 1 [1, 0] []).map (fun r => r.lineoffsets 5) = some 0 := by
  have hs : (buildLinesRequest twoLineSet 1 [1, 0] []).isSome = true := rfl
  refine ⟨(c6_request_zeroing.1 _ 1 1 [97, 98]).1,
    (c6_request_zeroing.1 _ 1 1 [97, 98]).2.1 7 (by decide),
    (c6_request_zeroing.1 _ 1 1 [97, 98]).2.2.2 2 (by decide), ?_, ?_⟩ <;>
  · cases hb : buildLinesRequest twoLineSet 1 [1, 0] [] with
    | none => rw [hb] at hs; exact absurd hs (by simp)
    | some req =>
      have h := c6_request_zeroing.2.1 twoLineSet 1 [1, 0] [] req hb
      simp [hb, h.1, h.2.1 5 (by decide), twoLineSet]

/-- C10 (confirmed): every successfully constructed Lines value has between 1
and 64 members, each a line of the constructing chip with offset below the
chip line count; consequently the index-0 access in Lines::chip and every
slice and array access in Lines::request are in bounds (the Option-modelled
operations never return none), and the handle returned by a successful
request carries the same line list, preserving the invariant. -/
theorem c10_lines_invariant (chip : InnerChip) (offsets : List Nat) (ls : Lines)
    (h : linesNew chip offsets = .ok ls) :
    (1 ≤ ls.lines.length ∧ ls.lines.length ≤ 64) ∧
    (∀ l ∈ ls.lines, l.chip = chip ∧ l.offset < chip.lines) ∧
    (linesChip ls).isSome = true ∧
    (∀ (kernel : Nat → GpiohandleRequest → Except NixErrno Int)
        (flags : Nat) (default consumer : List Nat),
      (linesRequest kernel ls flags default consumer).isSome = true) ∧
    (∀ (kernel : Nat → GpiohandleRequest → Except NixErrno Int)
        (flags : Nat) (default consumer : List Nat) h2 tr,
      linesRequest kernel ls flags default consumer = some (.ok h2, tr) →
      h2.lines.lines = ls.lines) := by
  rw [linesNew] at h
  by_cases hg : offsets.length = 0 ∨ offsets.length > Lines.MAX_LINES
  · rw [if_pos hg] at h; exact absurd h (by simp)
  · rw [if_neg hg] at h
    cases hc : collectLines chip offsets with
    | error e => rw [hc] at h; exact absurd h (by simp)
    | ok lines =>
      rw [hc] at h
      have hls : ({ lines := lines } : Lines) = ls := by injection h
      subst hls
      obtain ⟨hlen, hmem⟩ := collectLines_ok_inv chip offsets lines hc
      push_neg at hg
      simp only [Lines.MAX_LINES, GPIOHANDLES_MAX] at hg
      have hbounds : 1 ≤ lines.length ∧ lines.length ≤ 64 := by omega
      have h0pos : 0 < lines.length := by omega
      refine ⟨hbounds, hmem, ?_, ?_, ?_⟩
      · simp [linesChip, List.getElem?_eq_getElem h0pos]
      · intro kernel flags default consumer
        rw [linesRequest]
        split
        · rfl
        · split
          · next hb =>
            have := buildLinesRequest_isSome { lines := lines } flags default consumer
              hbounds.2 (by omega)
            rw [hb] at this
            exact absurd this (by simp)
          · next req hb =>
            split
            · next hg0 =>
              simp [List.getElem?_eq_getElem h0pos] at hg0
            · next line0 hg0 =>
              split <;> rfl
      · intro kernel flags default consumer h2 tr hres
        rw [linesRequest] at hres
        split at hres
        · injection hres with hpair
          injection hpair with h1 h2eq
          exact absurd h1 (by simp)
        · split at hres
          · exact absurd hres (by simp)
          · next req0 hb =>
            split at hres
            · exact absurd hres (by simp)
            · next line0 hg0 =>
              split at hres
              · next e hk =>
                injection hres with hpair
                injection hpair with h1 h2eq
                exact absurd h1 (by simp)
              · next fd hk =>
                injection hres with hpair
                injection hpair with h1 h2eq
                have hok := Except.ok.inj h1
                rw [← hok]

/-- C10 witness: the invariant consequences evaluated on the concrete
two-line set constructed from offsets 0 and 2 of the 4-line sample chip. -/
theorem c10_witness :
    (linesChip twoLineSet).isSome = true ∧
    (linesRequest (fun _ _ => .ok 7) twoLineSet 1 [1, 0] [116]).isSome = true :=
  ⟨(c10_lines_invariant sampleChip [0, 2] twoLineSet rfl).2.2.1,
   (c10_lines_invariant sampleChip [0, 2] twoLineSet rfl).2.2.2.1
     (fun _ _ => .ok 7) 1 [1, 0] [116]⟩

end GpioCdev
